import Mathlib

/-
A shallow embedding of the iterator core of the Cayley graph query engine
(package `graph/iterator`, file `iterator.go`): the `Base` default iterator
behaviour, the `Null` empty-set leaf iterator, and the process-wide UID
counter, together with theorems settling the specified properties.

Go mutation is modelled by explicit state passing: a method that may mutate
its receiver returns the updated receiver next to its result.  Go's `uint64`
arithmetic is modelled on `Nat` with explicit reduction modulo `2 ^ 64`.
Go's `graph.Value` (an `interface{}` that may be `nil`) is modelled as
`Option V` over an arbitrary element type `V`, with `none` standing for
Go's `nil`; the caller-owned destination map `map[string]graph.Value` is
modelled as a function `String → Option (GoValue V)` (`none` = key absent).
-/

set_option linter.unusedVariables false

namespace Cayley

/-- Go's `graph.Value`: an opaque identifier that may be `nil` (`none`). -/
abbrev GoValue (V : Type) := Option V

/-- Modelled from the spec: `graph.IteratorStats` is not under `src/`; the
spec describes it as a cost triple of three numeric fields (size estimate,
next-cost, check-cost).  Go's zero value has every field `0`. -/
structure IteratorStats where
  size : Int := 0
  nextCost : Int := 0
  checkCost : Int := 0
deriving DecidableEq, Repr

/-- Modelled from the spec: `graph.Type` is not under `src/`; the spec
describes it as a registry of named iterator kinds, of which only the kind
named "null" is in scope here. -/
inductive IterType where
  | null
deriving DecidableEq, Repr

/-- Modelled from the spec: `graph.Tagger` is not under `src/`; the spec
describes it as a registry of dynamic tags (`Tags()`, resolved to the
iterator's current `Last`) and fixed tags (`Fixed()`, a map from tag name
to a value bound at construction).  The fixed map is modelled as an
association list whose keys are distinct (a Go map invariant). -/
structure Tagger (V : Type) where
  tags : List String := []
  fixed : List (String × GoValue V) := []

variable {V : Type}

/-- The caller-owned destination map `map[string]graph.Value`:
`none` means the key is absent, `some v` that it is bound to `v`. -/
abbrev TagMap (V : Type) := String → Option (GoValue V)

/-- Go map assignment `m[k] = v`. -/
def mapPut (m : TagMap V) (k : String) (v : GoValue V) : TagMap V :=
  fun q => if q = k then some v else m q

/-- The modulus of Go's `uint64` arithmetic. -/
def UINT64_SIZE : Nat := 2 ^ 64

/-- `NextUID` over the global counter state `s` (the current value of
`nextIteratorID`, a `uint64`): `atomic.AddUint64(&nextIteratorID, 1) - 1`
returns the old counter value; both the increment and the subtraction are
`uint64` operations, hence the reductions modulo `2 ^ 64`.  Returns the
generated UID next to the new counter state. -/
def NextUID (s : Nat) : Nat × Nat :=
  let s' := (s + 1) % UINT64_SIZE
  ((s' + (UINT64_SIZE - 1)) % UINT64_SIZE, s')

/-- The counter state after `n` calls of `NextUID`, starting from the
zero-initialised global `nextIteratorID`. -/
def counterAfter : Nat → Nat
  | 0 => 0
  | n + 1 => (NextUID (counterAfter n)).2

/-- The UID returned by the `n`-th call of `NextUID` (0-based), starting
from the zero-initialised global counter. -/
def uidAt (n : Nat) : Nat := (NextUID (counterAfter n)).1

/-- `Base`: the iterator other iterators inherit from.  Go's zero value has
`Last = nil` and `canNext = false`. -/
structure Base (V : Type) where
  Last : GoValue V := none
  canNext : Bool := false

/-- `BaseInit`: called by subclasses; marks the iterator nextable. -/
def BaseInit (it : Base V) : Base V := { it with canNext := true }

/-- `Base.Check`: nothing in a base iterator; returns `false`, receiver
unchanged. -/
def Base.Check (it : Base V) (v : GoValue V) : Bool × Base V := (false, it)

/-- `Base.Stats`: the large sentinel triple `{100000, 100000, 100000}`. -/
def Base.Stats (it : Base V) : IteratorStats := ⟨100000, 100000, 100000⟩

/-- `Base.Next`: nothing in a base iterator; returns `(nil, false)`,
receiver unchanged. -/
def Base.Next (it : Base V) : (GoValue V × Bool) × Base V := ((none, false), it)

/-- `Base.NextResult`: returns `false`, receiver unchanged. -/
def Base.NextResult (it : Base V) : Bool × Base V := (false, it)

/-- `Base.Result`: the last result of the iterator. -/
def Base.Result (it : Base V) : GoValue V := it.Last

/-- `Base.Size`: zero elements, and that count is exact. -/
def Base.Size (it : Base V) : Int × Bool := (0, true)

/-- `Base.CanNext`: accessor for the can-advance flag. -/
def Base.CanNext (it : Base V) : Bool := it.canNext

/-- `Base.Reset`: a no-op. -/
def Base.Reset (it : Base V) : Base V := it

/-- `Null`: the empty-set leaf iterator.  It embeds `Base` and adds its
UID and tag registry. -/
structure Null (V : Type) where
  base : Base V := {}
  uid : Nat := 0
  tags : Tagger V := {}

/-- `NewNull`: `&Null{uid: NextUID()}` over the counter state `s`.  All
other fields take their Go zero values; in particular `BaseInit` is NOT
called. -/
def NewNull (s : Nat) : Null V × Nat :=
  let r := NextUID s
  ({ base := {}, uid := r.1, tags := {} }, r.2)

/-- `Null.UID`. -/
def Null.UID (it : Null V) : Nat := it.uid

/-- `Null.Result`, promoted from the embedded `Base`. -/
def Null.Result (it : Null V) : GoValue V := it.base.Result

/-- `Null.Check`, promoted from the embedded `Base`. -/
def Null.Check (it : Null V) (v : GoValue V) : Bool × Null V :=
  let r := it.base.Check v
  (r.1, { it with base := r.2 })

/-- `Null.Next`, promoted from the embedded `Base`. -/
def Null.Next (it : Null V) : (GoValue V × Bool) × Null V :=
  let r := it.base.Next
  (r.1, { it with base := r.2 })

/-- `Null.NextResult`, promoted from the embedded `Base`. -/
def Null.NextResult (it : Null V) : Bool × Null V :=
  let r := it.base.NextResult
  (r.1, { it with base := r.2 })

/-- `Null.CanNext`, promoted from the embedded `Base`. -/
def Null.CanNext (it : Null V) : Bool := it.base.CanNext

/-- `Null.TagResults`: writes each dynamic tag bound to `it.Result()`,
then each fixed tag bound to its fixed value, into the destination map. -/
def Null.TagResults (it : Null V) (dst : TagMap V) : TagMap V :=
  let d1 := it.tags.tags.foldl (fun m tag => mapPut m tag it.Result) dst
  it.tags.fixed.foldl (fun m p => mapPut m p.1 p.2) d1

/-- `Null.Clone`: `NewNull()` over the counter state `s`. -/
def Null.Clone (it : Null V) (s : Nat) : Null V × Nat := NewNull s

/-- `Null.Type`: names the null iterator (`iterType` since `Type` is a
Lean keyword). -/
def Null.iterType (it : Null V) : IterType := IterType.null

/-- `Null.Optimize`: returns the receiver itself and `false`. -/
def Null.Optimize (it : Null V) : Null V × Bool := (it, false)

/-- `Null.Stats`: `graph.IteratorStats{}`, the zero value. -/
def Null.Stats (it : Null V) : IteratorStats := {}

/-- `Null.Close`: a no-op. -/
def Null.Close (it : Null V) : Null V := it

/- Supporting lemmas on the UID counter. -/

theorem UINT64_SIZE_pos : 0 < UINT64_SIZE := by
  unfold UINT64_SIZE; positivity

theorem one_lt_UINT64_SIZE : 1 < UINT64_SIZE := by
  unfold UINT64_SIZE; norm_num

/-- The UID handed out by `NextUID` is the old counter value (reduced
modulo `2 ^ 64`). -/
theorem nextUID_fst (s : Nat) : (NextUID s).1 = s % UINT64_SIZE := by
  show ((s + 1) % UINT64_SIZE + (UINT64_SIZE - 1)) % UINT64_SIZE = s % UINT64_SIZE
  rw [Nat.add_mod, Nat.mod_mod_of_dvd _ dvd_rfl, ← Nat.add_mod]
  have h : s + 1 + (UINT64_SIZE - 1) = s + UINT64_SIZE := by
    have := UINT64_SIZE_pos; omega
  rw [h, Nat.add_mod_right]

/-- The new counter state after `NextUID` is the incremented old state
(reduced modulo `2 ^ 64`). -/
theorem nextUID_snd (s : Nat) : (NextUID s).2 = (s + 1) % UINT64_SIZE := rfl

/-- After `n` calls, the stored counter is `n % 2 ^ 64`. -/
theorem counterAfter_eq (n : Nat) : counterAfter n = n % UINT64_SIZE := by
  induction n with
  | zero => simp [counterAfter]
  | succ n ih =>
      show (NextUID (counterAfter n)).2 = (n + 1) % UINT64_SIZE
      rw [nextUID_snd, ih, Nat.add_mod, Nat.mod_mod_of_dvd _ dvd_rfl, ← Nat.add_mod]

/-- The `n`-th call of `NextUID` returns `n % 2 ^ 64`. -/
theorem uidAt_eq (n : Nat) : uidAt n = n % UINT64_SIZE := by
  unfold uidAt
  rw [nextUID_fst, counterAfter_eq, Nat.mod_mod_of_dvd _ dvd_rfl]

/- Supporting lemmas on destination-map folds. -/

/-- Folding fixed-tag writes over keys not containing `k` leaves `k`'s
binding unchanged. -/
theorem foldl_mapPut_pairs_notin (l : List (String × GoValue V)) (k : String) :
    k ∉ l.map Prod.fst → ∀ m : TagMap V,
    (l.foldl (fun m p => mapPut m p.1 p.2) m) k = m k := by
  induction l with
  | nil => intro _ m; rfl
  | cons p t ih =>
      intro hk m
      simp only [List.map_cons, List.mem_cons] at hk
      push_neg at hk
      simp only [List.foldl_cons]
      rw [ih hk.2]
      simp [mapPut, hk.1]

/-- Folding fixed-tag writes over a distinct-key list binds each listed
key to its listed value. -/
theorem foldl_mapPut_pairs_mem (l : List (String × GoValue V)) (k : String)
    (v : GoValue V) :
    (l.map Prod.fst).Nodup → (k, v) ∈ l → ∀ m : TagMap V,
    (l.foldl (fun m p => mapPut m p.1 p.2) m) k = some v := by
  induction l with
  | nil => intro _ hmem; cases hmem
  | cons p t ih =>
      intro hnd hmem m
      simp only [List.map_cons, List.nodup_cons] at hnd
      simp only [List.foldl_cons]
      rcases List.mem_cons.mp hmem with h | h
      · subst h
        rw [foldl_mapPut_pairs_notin t k hnd.1]
        simp [mapPut]
      · exact ih hnd.2 h _

/-- Folding dynamic-tag writes over tags not containing `k` leaves `k`'s
binding unchanged. -/
theorem foldl_mapPut_const_notin (l : List String) (r : GoValue V) (k : String) :
    k ∉ l → ∀ m : TagMap V,
    (l.foldl (fun m tag => mapPut m tag r) m) k = m k := by
  induction l with
  | nil => intro _ m; rfl
  | cons a t ih =>
      intro hk m
      simp only [List.mem_cons] at hk
      push_neg at hk
      simp only [List.foldl_cons]
      rw [ih hk.2]
      simp [mapPut, hk.1]

/-- Folding dynamic-tag writes binds every listed tag to the written
value. -/
theorem foldl_mapPut_const_mem (l : List String) (r : GoValue V) (k : String) :
    k ∈ l → ∀ m : TagMap V,
    (l.foldl (fun m tag => mapPut m tag r) m) k = some r := by
  induction l with
  | nil => intro h; cases h
  | cons a t ih =>
      intro hk m
      simp only [List.foldl_cons]
      by_cases ht : k ∈ t
      · exact ih ht _
      · have hka : k = a := by
          rcases List.mem_cons.mp hk with h | h
          · exact h
          · exact absurd h ht
        rw [foldl_mapPut_const_notin t r k ht]
        simp [mapPut, hka]

/- Claim theorems. -/

/-- C1: for the Null iterator and every value `v`, `Check v` returns
`false`, `Next` returns no value (exhaustion), `NextResult` returns
`false`, and none of these calls changes the receiver — in particular the
`Last` field stays at its initial empty value (`none` for a fresh
`NewNull`). -/
theorem null_traversal_always_fails (it : Null V) (v : GoValue V) (s : Nat) :
    (it.Check v).1 = false ∧ (it.Check v).2 = it ∧
    (it.Next).1 = (none, false) ∧ (it.Next).2 = it ∧
    (it.NextResult).1 = false ∧ (it.NextResult).2 = it ∧
    (NewNull (V := V) s).1.base.Last = none :=
  ⟨rfl, rfl, rfl, rfl, rfl, rfl, rfl⟩

/-- C2: for every Null iterator with any registered dynamic tags and
fixed tags (the fixed map's keys being distinct, a Go map invariant),
`TagResults dst` binds each fixed tag to its fixed value — fixed entries
are written after dynamic ones and win on a shared key — binds each
dynamic tag that carries no fixed binding to the current `Result()`, and
leaves every other key of `dst` unchanged.  In particular, with fixed tag
`(x, v1)` and dynamic tag `y` while `Last = v2`, the destination
afterwards maps `y` to `v2` and `x` to `v1`, the fixed value winning when
`x` is also registered as a dynamic tag. -/
theorem null_tagResults_spec (it : Null V) (dst : TagMap V) (k : String)
    (v : GoValue V) (x y : String) (v1 v2 : V) (u : Nat)
    (hnd : (it.tags.fixed.map Prod.fst).Nodup) (hxy : x ≠ y) :
    ((k, v) ∈ it.tags.fixed → (it.TagResults dst) k = some v) ∧
    (k ∉ it.tags.fixed.map Prod.fst → k ∈ it.tags.tags →
      (it.TagResults dst) k = some it.Result) ∧
    (k ∉ it.tags.fixed.map Prod.fst → k ∉ it.tags.tags →
      (it.TagResults dst) k = dst k) ∧
    (Null.TagResults
      { base := { Last := some v2 }, uid := u,
        tags := { tags := [y], fixed := [(x, some v1)] } } dst) y = some (some v2) ∧
    (Null.TagResults
      { base := { Last := some v2 }, uid := u,
        tags := { tags := [y], fixed := [(x, some v1)] } } dst) x = some (some v1) ∧
    (Null.TagResults
      { base := { Last := some v2 }, uid := u,
        tags := { tags := [x], fixed := [(x, some v1)] } } dst) x = some (some v1) := by
  refine ⟨?_, ?_, ?_, ?_, ?_, ?_⟩
  · intro hmem
    simp only [Null.TagResults]
    exact foldl_mapPut_pairs_mem it.tags.fixed k v hnd hmem _
  · intro hfix hdyn
    simp only [Null.TagResults]
    rw [foldl_mapPut_pairs_notin it.tags.fixed k hfix]
    exact foldl_mapPut_const_mem it.tags.tags it.Result k hdyn dst
  · intro hfix hdyn
    simp only [Null.TagResults]
    rw [foldl_mapPut_pairs_notin it.tags.fixed k hfix]
    exact foldl_mapPut_const_notin it.tags.tags it.Result k hdyn dst
  all_goals simp [Null.TagResults, mapPut, Null.Result, Base.Result, hxy, Ne.symm hxy]

/-- C2 witness: the theorem applied to the Null with dynamic tag `"y"`
and fixed tag `("x", 1)` while `Last = 2`, over an empty destination
map. -/
theorem null_tagResults_spec_witness :
    (((([(("x" : String), (some 1 : GoValue Nat))]).map Prod.fst).Nodup) ∧
      ("x" : String) ≠ "y") ∧
    ((Null.TagResults
        { base := { Last := some 2 }, uid := 0,
          tags := { tags := ["y"], fixed := [("x", some 1)] } } (fun _ => none)) "y"
          = some (some 2) ∧
     (Null.TagResults
        { base := { Last := some 2 }, uid := 0,
          tags := { tags := ["y"], fixed := [("x", some 1)] } } (fun _ => none)) "x"
          = some (some 1) ∧
     (Null.TagResults (V := Nat)
        { base := { Last := some 2 }, uid := 0,
          tags := { tags := ["x"], fixed := [("x", some 1)] } } (fun _ => none)) "x"
          = some (some 1)) :=
  ⟨⟨by decide, by decide⟩,
   (null_tagResults_spec
      { base := { Last := some 2 }, uid := 0,
        tags := { tags := ["y"], fixed := [("x", some 1)] } }
      (fun _ => none) "x" (some 1) "x" "y" 1 2 0 (by decide) (by decide)).2.2.2⟩

/-- C3 counterexample: the Null returned by `NewNull()` has its
can-advance flag still `false` — `NewNull` never calls `BaseInit`, so
`CanNext()` returns `false`, not `true`, before any traversal call. -/
theorem newNull_canNext_is_false : (NewNull (V := Nat) 0).1.CanNext = false := rfl

/-- C3 amended: a freshly constructed Null starts with no match
(`Result()` empty), but its can-advance flag is `false` because `NewNull`
does not call `BaseInit`; only the construction helper `BaseInit` sets the
flag to `true`. -/
theorem newNull_default_state (s : Nat) (b : Base V) :
    (NewNull (V := V) s).1.Result = none ∧
    (NewNull (V := V) s).1.CanNext = false ∧
    (BaseInit b).canNext = true :=
  ⟨rfl, rfl, rfl⟩

/-- C4: for every Null iterator, `Stats()` is the cost triple whose three
fields are all exactly zero. -/
theorem null_stats_zero (it : Null V) : it.Stats = ⟨0, 0, 0⟩ := rfl

/-- C5: for every Base iterator, the default `Stats()` is the large
sentinel cost triple with `100000` on every field. -/
theorem base_stats_sentinel (it : Base V) : it.Stats = ⟨100000, 100000, 100000⟩ := rfl

/-- C6 counterexample: the `uint64` counter wraps, so UID generation does
repeat: call number `2 ^ 64` returns the same identifier as call number
`0`, and monotonicity fails at the wrap. -/
theorem nextUID_repeats :
    uidAt (2 ^ 64) = uidAt 0 ∧ (2 ^ 64 : Nat) ≠ 0 ∧
    ¬ uidAt (2 ^ 64 - 1) < uidAt (2 ^ 64) := by
  have h0 : uidAt 0 = 0 := by rw [uidAt_eq]; exact Nat.zero_mod _
  have hM : uidAt (2 ^ 64) = 0 := by
    rw [uidAt_eq]; show 2 ^ 64 % UINT64_SIZE = 0; unfold UINT64_SIZE
    exact Nat.mod_self _
  have hM1 : uidAt (2 ^ 64 - 1) = 2 ^ 64 - 1 := by
    rw [uidAt_eq]; exact Nat.mod_eq_of_lt (by unfold UINT64_SIZE; omega)
  refine ⟨by rw [hM, h0], by positivity, ?_⟩
  rw [hM, hM1]; omega

/-- C6 amended: for every `N ≤ 2 ^ 64`, the first `N` calls of `NextUID`
yield pairwise-distinct identifiers, and sequential calls are strictly
monotonically increasing: for call numbers `i < j < 2 ^ 64` the UIDs
satisfy `uidAt i < uidAt j` (hence `uidAt i ≠ uidAt j`). -/
theorem uid_distinct_increasing (i j : Nat) (hij : i < j) (hj : j < UINT64_SIZE) :
    uidAt i < uidAt j ∧ uidAt i ≠ uidAt j := by
  rw [uidAt_eq, uidAt_eq, Nat.mod_eq_of_lt (lt_trans hij hj), Nat.mod_eq_of_lt hj]
  exact ⟨hij, Nat.ne_of_lt hij⟩

/-- C6 witness: the theorem applied at call numbers `0 < 1 < 2 ^ 64`. -/
theorem uid_distinct_increasing_witness :
    0 < 1 ∧ 1 < UINT64_SIZE ∧ (uidAt 0 < uidAt 1 ∧ uidAt 0 ≠ uidAt 1) :=
  ⟨by norm_num, by unfold UINT64_SIZE; norm_num,
   uid_distinct_increasing 0 1 (by norm_num) (by unfold UINT64_SIZE; norm_num)⟩

/-- C7 counterexample: at a wrapped counter state the unqualified claim
fails — the Null produced by call `0` of the UID counter, cloned at the
counter state reached after `2 ^ 64` calls, receives the very same UID
`0` rather than a different one. -/
theorem null_clone_uid_repeats :
    ((NewNull (V := Nat) 0).1.Clone (counterAfter (2 ^ 64))).1.uid
      = (NewNull (V := Nat) 0).1.uid := by
  have h : counterAfter (2 ^ 64) = 0 := by
    rw [counterAfter_eq]
    show 2 ^ 64 % UINT64_SIZE = 0
    unfold UINT64_SIZE
    exact Nat.mod_self _
  rw [h]
  rfl

/-- C7 amended: `Clone()` on a Null produces a new Null of type `null`
with identical `Check`/`Next` behaviour and fresh, independent traversal
state — the clone's `Last` starts empty regardless of the receiver's, and
advancing either iterator leaves both unchanged — and its UID differs
from the receiver's provided the receiver's UID was issued before the
current counter state `s` and the `uint64` counter has not wrapped
(`it.uid < s < 2 ^ 64`); at a wrapped counter state the counter can
reissue the receiver's own UID to the clone. -/
theorem null_clone_fresh (it : Null V) (s : Nat) (v : GoValue V)
    (h1 : it.uid < s) (h2 : s < UINT64_SIZE) :
    (it.Clone s).1.uid ≠ it.uid ∧
    (it.Clone s).1.iterType = IterType.null ∧ it.iterType = IterType.null ∧
    ((it.Clone s).1.Check v).1 = (it.Check v).1 ∧
    ((it.Clone s).1.Next).1 = (it.Next).1 ∧
    (it.Clone s).1.base.Last = none ∧
    ((it.Clone s).1.Next).2 = (it.Clone s).1 ∧
    (it.Next).2 = it := by
  refine ⟨?_, rfl, rfl, rfl, rfl, rfl, rfl, rfl⟩
  show (NextUID s).1 ≠ it.uid
  rw [nextUID_fst, Nat.mod_eq_of_lt h2]
  omega

/-- C7 witness: the theorem applied to the Null constructed first
(UID `0`) and a clone taken at counter state `1`. -/
theorem null_clone_fresh_witness :
    (NewNull (V := Nat) 0).1.uid < 1 ∧ 1 < UINT64_SIZE ∧
    (((NewNull (V := Nat) 0).1.Clone 1).1.uid ≠ (NewNull (V := Nat) 0).1.uid ∧
     ((NewNull (V := Nat) 0).1.Clone 1).1.iterType = IterType.null ∧
     (NewNull (V := Nat) 0).1.iterType = IterType.null ∧
     (((NewNull (V := Nat) 0).1.Clone 1).1.Check none).1
        = ((NewNull (V := Nat) 0).1.Check none).1 ∧
     (((NewNull (V := Nat) 0).1.Clone 1).1.Next).1 = ((NewNull (V := Nat) 0).1.Next).1 ∧
     ((NewNull (V := Nat) 0).1.Clone 1).1.base.Last = none ∧
     (((NewNull (V := Nat) 0).1.Clone 1).1.Next).2 = ((NewNull (V := Nat) 0).1.Clone 1).1 ∧
     ((NewNull (V := Nat) 0).1.Next).2 = (NewNull (V := Nat) 0).1) :=
  ⟨by decide, by decide,
   null_clone_fresh (NewNull (V := Nat) 0).1 1 none (by decide) (by decide)⟩

/-- C8: for every Null iterator, `Optimize()` returns the receiver itself
and the changed flag `false`, regardless of the iterator's state. -/
theorem null_optimize_self_false (it : Null V) : it.Optimize = (it, false) := rfl

/-- C9: exhaustion is idempotent for Base and Null: `Next` returns
exhaustion with no value and an unchanged receiver, so every subsequent
`Next` call — in particular the very next one — again returns exhaustion
with no value. -/
theorem next_exhaustion_idempotent (b : Base V) (it : Null V) :
    (b.Next).1 = (none, false) ∧ (b.Next).2 = b ∧
    ((b.Next).2.Next).1 = (none, false) ∧
    (it.Next).1 = (none, false) ∧ (it.Next).2 = it ∧
    ((it.Next).2.Next).1 = (none, false) :=
  ⟨rfl, rfl, rfl, rfl, rfl, rfl⟩

/-- C10: `Clone()` on a Null returns a Null whose tag registry is empty —
dynamic and fixed tags of the receiver are not carried over — so
`TagResults` on the clone leaves the destination map unchanged even when
the original (here carrying the fixed tag `(k, v)`) writes an entry. -/
theorem null_clone_empty_tags (it : Null V) (s : Nat) (dst : TagMap V)
    (k : String) (v : V) :
    (it.Clone s).1.tags.tags = [] ∧ (it.Clone s).1.tags.fixed = [] ∧
    ((it.Clone s).1.TagResults dst) k = dst k ∧
    (Null.TagResults
      { base := it.base, uid := it.uid,
        tags := { tags := [], fixed := [(k, some v)] } } dst) k = some (some v) ∧
    ((Null.Clone
      { base := it.base, uid := it.uid,
        tags := { tags := [], fixed := [(k, some v)] } } s).1.TagResults dst) k
      = dst k := by
  refine ⟨rfl, rfl, rfl, ?_, rfl⟩
  simp [Null.TagResults, mapPut]

end Cayley
